import Mathlib

/-!
Verification of the affluences-helper repository.

The development shallowly embeds the two source files:

* `main.py` — the one-shot reservation script: time conversions
  (`watch_to_minutes` / `minutes_to_watch`), accumulation of per-resource
  bookable-hour sets across several lookup calls (`get_available`), the
  required-window generation (`must_contain`), the full-coverage filter
  (`complete_places`), and the favorite-spot selection / fallback logic.
* `availability.py` — the per-category seat scan (`get_available_seats`):
  category blacklist filtering, locating the requested time slot in a
  resource's hour list, and the contiguous-availability run computation.

Strings are modelled as lists of characters (`Str`); Python sets of hour
strings are modelled as `Finset Str`; a raised Python exception (KeyError)
is modelled as the `Except.error` branch.  Python `while` loops that
advance a counter by a fixed positive step are modelled with an explicit
iteration bound (fuel) so that every definition evaluates by kernel
reduction; lemmas discharge the bound.
-/

namespace Affluences

/-- Strings from the Python source, modelled as lists of characters. -/
abbrev Str := List Char

/-- Decimal digit character for `d`, as produced by Python decimal formatting
(`'0'` has code point 48). -/
def digitChar (d : Nat) : Char := Char.ofNat (48 + d)

/-- Decimal digits of `n`, most significant first, with an explicit fuel
argument bounding the recursion depth (the Python formatting `"{:02}".format`
produces the plain decimal expansion). -/
def natDigitsAux (fuel : Nat) (n : Nat) : Str :=
  match fuel with
  | 0 => []
  | fuel + 1 =>
      if n < 10 then [digitChar n]
      else natDigitsAux fuel (n / 10) ++ [digitChar (n % 10)]

/-- Decimal expansion of `n` (fuel `n + 1` is always sufficient since the
argument is divided by 10 at each step). -/
def natDigits (n : Nat) : Str := natDigitsAux (n + 1) n

/-- Python `"{:02}".format(n)`: the decimal expansion of `n`, left-padded
with `'0'` to width 2. -/
def pad2 (n : Nat) : Str := if n < 10 then '0' :: natDigits n else natDigits n

/-- `minutes_to_watch` from `main.py`:
`"{:02}:{:02}".format(int(minutes/60), minutes % 60)`. -/
def minutes_to_watch (minutes : Nat) : Str :=
  pad2 (minutes / 60) ++ ':' :: pad2 (minutes % 60)

/-- Python `str.split(":")`: split a character list at every `':'`. -/
def splitColon : Str → List Str
  | [] => [[]]
  | c :: rest =>
      if c = ':' then [] :: splitColon rest
      else
        match splitColon rest with
        | [] => [[c]]
        | p :: ps => (c :: p) :: ps

/-- Python `int(...)` on a string of decimal digits. -/
def parseNat (s : Str) : Nat := s.foldl (fun acc c => acc * 10 + (c.toNat - 48)) 0

/-- `watch_to_minutes` from `main.py`:
`parts = watch.split(":"); int(parts[0])*60 + int(parts[1])`. -/
def watch_to_minutes (watch : Str) : Nat :=
  let parts := splitColon watch
  parseNat (parts.getD 0 []) * 60 + parseNat (parts.getD 1 [])

/-- The fixed slot granularity from `main.py` (`granularity = 30`). -/
def granularity : Nat := 30

@[simp] theorem granularity_eq : granularity = 30 := rfl

/-! ### Basic lemmas about the decimal formatting and parsing -/

theorem digitChar_toNat : ∀ d, d < 10 → (digitChar d).toNat = 48 + d := by decide

theorem digitChar_ne_colon : ∀ d, d < 10 → digitChar d ≠ ':' := by decide

theorem natDigitsAux_digits (fuel : Nat) :
    ∀ n, n < fuel → ∀ c ∈ natDigitsAux fuel n, ∃ d, d < 10 ∧ c = digitChar d := by
  induction fuel with
  | zero => intro n hn; omega
  | succ fuel ih =>
      intro n _ c hc
      rw [natDigitsAux] at hc
      by_cases h10 : n < 10
      · rw [if_pos h10] at hc
        simp only [List.mem_singleton] at hc
        exact ⟨n, h10, hc⟩
      · rw [if_neg h10] at hc
        rcases List.mem_append.mp hc with h | h
        · exact ih (n / 10) (by omega) c h
        · simp only [List.mem_singleton] at h
          exact ⟨n % 10, Nat.mod_lt _ (by omega), h⟩

theorem natDigits_digits (n : Nat) : ∀ c ∈ natDigits n, ∃ d, d < 10 ∧ c = digitChar d :=
  natDigitsAux_digits (n + 1) n (Nat.lt_succ_self n)

theorem colon_not_mem_natDigits (n : Nat) : ':' ∉ natDigits n := by
  intro h
  obtain ⟨d, hd, hc⟩ := natDigits_digits n ':' h
  exact digitChar_ne_colon d hd hc.symm

theorem colon_not_mem_pad2 (n : Nat) : ':' ∉ pad2 n := by
  unfold pad2
  by_cases h : n < 10
  · rw [if_pos h]
    intro hmem
    rcases List.mem_cons.mp hmem with h0 | h0
    · exact absurd h0 (by decide)
    · exact colon_not_mem_natDigits n h0
  · rw [if_neg h]; exact colon_not_mem_natDigits n

theorem splitColon_no_colon (b : Str) (hb : ':' ∉ b) : splitColon b = [b] := by
  induction b with
  | nil => rfl
  | cons c rest ih =>
      have hc : c ≠ ':' := fun h => hb (h ▸ List.mem_cons_self c rest)
      have hrest : ':' ∉ rest := fun h => hb (List.mem_cons_of_mem c h)
      rw [splitColon, if_neg hc, ih hrest]

theorem splitColon_append (a b : Str) (ha : ':' ∉ a) :
    splitColon (a ++ ':' :: b) = a :: splitColon b := by
  induction a with
  | nil => simp [splitColon]
  | cons c rest ih =>
      have hc : c ≠ ':' := fun h => ha (h ▸ List.mem_cons_self c rest)
      have hrest : ':' ∉ rest := fun h => ha (List.mem_cons_of_mem c h)
      rw [List.cons_append, splitColon, if_neg hc, ih hrest]

theorem parseNat_append_digit (a : Str) (c : Char) :
    parseNat (a ++ [c]) = parseNat a * 10 + (c.toNat - 48) := by
  unfold parseNat
  rw [List.foldl_append]
  rfl

theorem parseNat_natDigitsAux (fuel : Nat) :
    ∀ n, n < fuel → parseNat (natDigitsAux fuel n) = n := by
  induction fuel with
  | zero => intro n hn; omega
  | succ fuel ih =>
      intro n _
      rw [natDigitsAux]
      by_cases h10 : n < 10
      · rw [if_pos h10]
        show parseNat ([] ++ [digitChar n]) = n
        rw [parseNat_append_digit, digitChar_toNat n h10]
        simp [parseNat]
      · rw [if_neg h10]
        rw [parseNat_append_digit, ih (n / 10) (by omega),
          digitChar_toNat (n % 10) (Nat.mod_lt _ (by omega))]
        omega

theorem parseNat_natDigits (n : Nat) : parseNat (natDigits n) = n :=
  parseNat_natDigitsAux (n + 1) n (Nat.lt_succ_self n)

theorem parseNat_pad2 (n : Nat) : parseNat (pad2 n) = n := by
  unfold pad2
  by_cases h : n < 10
  · rw [if_pos h]
    have : parseNat ('0' :: natDigits n) = parseNat (natDigits n) := by
      unfold parseNat
      rfl
    rw [this, parseNat_natDigits]
  · rw [if_neg h, parseNat_natDigits]

theorem watch_to_minutes_canonical (h m : Nat) :
    watch_to_minutes (pad2 h ++ ':' :: pad2 m) = h * 60 + m := by
  unfold watch_to_minutes
  rw [splitColon_append _ _ (colon_not_mem_pad2 h),
    splitColon_no_colon _ (colon_not_mem_pad2 m)]
  simp only [List.getD, List.get?, Option.getD_some]
  rw [parseNat_pad2, parseNat_pad2]

theorem w2m_m2w (m : Nat) : watch_to_minutes (minutes_to_watch m) = m := by
  unfold minutes_to_watch
  rw [watch_to_minutes_canonical]
  omega

theorem m2w_injective : Function.Injective minutes_to_watch :=
  Function.LeftInverse.injective w2m_m2w

theorem m2w_w2m (h m : Nat) (hm : m < 60) :
    minutes_to_watch (watch_to_minutes (pad2 h ++ ':' :: pad2 m)) = pad2 h ++ ':' :: pad2 m := by
  rw [watch_to_minutes_canonical]
  unfold minutes_to_watch
  have h1 : (h * 60 + m) / 60 = h := by omega
  have h2 : (h * 60 + m) % 60 = m := by omega
  rw [h1, h2]

/-! ### Required window generation (`must_contain` loop in `main.py`)

The Python loop is
```
must_contain = set()
counter = 0
while counter < duration:
    must_contain.add(minutes_to_watch(start_minutes + counter))
    counter += granularity
```
modelled with an explicit fuel bounding the number of iterations; since the
counter advances by `granularity = 30 ≥ 1` per iteration, fuel `duration`
always suffices. -/

/-- One unfolding of the `must_contain` accumulation loop per unit of fuel. -/
def mustContainAux (startMinutes duration : Nat) : Nat → Nat → Finset Str
  | _, 0 => ∅
  | counter, fuel + 1 =>
      if counter < duration then
        insert (minutes_to_watch (startMinutes + counter))
          (mustContainAux startMinutes duration (counter + granularity) fuel)
      else ∅

/-- The `must_contain` set built by `main.py` for a start time (in minutes)
and a total duration (in minutes). -/
def must_contain (startMinutes duration : Nat) : Finset Str :=
  mustContainAux startMinutes duration 0 duration

theorem mem_mustContainAux (s d : Nat) :
    ∀ fuel counter x, d - counter ≤ fuel →
      (x ∈ mustContainAux s d counter fuel ↔
        ∃ k, counter + 30 * k < d ∧ x = minutes_to_watch (s + (counter + 30 * k))) := by
  intro fuel
  induction fuel with
  | zero =>
      intro counter x hfuel
      rw [mustContainAux]
      simp only [Finset.not_mem_empty, false_iff]
      rintro ⟨k, hk, _⟩
      omega
  | succ fuel ih =>
      intro counter x hfuel
      rw [mustContainAux]
      by_cases hlt : counter < d
      · rw [if_pos hlt, Finset.mem_insert, ih (counter + granularity) x (by simp; omega)]
        constructor
        · rintro (rfl | ⟨k, hk, rfl⟩)
          · exact ⟨0, by omega, by norm_num⟩
          · refine ⟨k + 1, by simp at hk ⊢; omega, ?_⟩
            congr 1
            simp
            omega
        · rintro ⟨k, hk, rfl⟩
          match k with
          | 0 => left; norm_num
          | k + 1 =>
              right
              refine ⟨k, by simp; omega, ?_⟩
              congr 1
              simp
              omega
      · rw [if_neg hlt]
        simp only [Finset.not_mem_empty, false_iff]
        rintro ⟨k, hk, _⟩
        omega

theorem must_contain_eq_image (s d : Nat) (h30 : d % 30 = 0) :
    must_contain s d =
      (Finset.range (d / 30)).image (fun k => minutes_to_watch (s + k * 30)) := by
  apply Finset.ext
  intro x
  rw [must_contain, mem_mustContainAux s d d 0 x (by omega), Finset.mem_image]
  constructor
  · rintro ⟨k, hk, rfl⟩
    refine ⟨k, Finset.mem_range.mpr (by omega), ?_⟩
    congr 1
    omega
  · rintro ⟨k, hk, rfl⟩
    rw [Finset.mem_range] at hk
    refine ⟨k, by omega, ?_⟩
    congr 1
    omega

theorem must_contain_card (s d : Nat) (h30 : d % 30 = 0) :
    (must_contain s d).card * 30 = d := by
  rw [must_contain_eq_image s d h30]
  rw [Finset.card_image_of_injective _ (fun a b hab => by
    have := m2w_injective hab
    omega)]
  rw [Finset.card_range]
  omega

/-! ### Data model

One record per JSON shape consumed by the repository (section of the lookup
response used by both source files):
`{ "resource_id", "resource_name", "hours": [ { "hour", "state",
"places_available", "places_bookable" } ], "description" }`.
The `hours` field is optional: `availability.py` reads it with
`resource.get("hours", [])` while `main.py` subscripts it directly (a
missing field raises `KeyError` there). -/

/-- One entry of a resource's `hours` array. -/
structure Slot where
  hour : Str
  state : Str
  places_available : Int
  places_bookable : Int
  deriving DecidableEq

/-- One resource record of a lookup response. -/
structure Resource where
  resource_id : Int
  resource_name : Str
  description : Str
  hours : Option (List Slot)
  deriving DecidableEq

/-- The accumulating per-resource record of `main.py` (`class Place`). -/
structure Place where
  number : Nat
  availability : Finset Str
  resid : Int
  deriving DecidableEq

/-- The literal part of the seat-name pattern
`"Posto a sedere ([0-9]+)"` from `main.py`. -/
def pattern_literal : Str := "Posto a sedere ".data

/-- Python `re.match("Posto a sedere ([0-9]+)", name)` followed by
`int(m.group(1))`: the name must start with the literal, followed by at
least one decimal digit; the captured group is the maximal digit run. -/
def pattern_match (name : Str) : Option Nat :=
  if pattern_literal.isPrefixOf name then
    let ds := (name.drop pattern_literal.length).takeWhile Char.isDigit
    if ds.isEmpty then none else some (parseNat ds)
  else none

/-- The inner `hours` loop of `get_available` in `main.py`: collect into a
set the `hour` of every slot whose `places_bookable` equals 1. -/
def bookableHours (hrs : List Slot) : Finset Str :=
  hrs.foldl (fun acc slot => if slot.places_bookable ≠ 1 then acc else insert slot.hour acc) ∅

/-- One iteration of the resource loop in `get_available` (`main.py`).

Faithful to the source, including its merge slip: a fresh `availability`
set is created and filled from this call's bookable slots, but when a place
with the same `resid` already exists in `places` the fresh set is simply
discarded (the loop adds hours to the local `availability`, never to the
found place's set), so the existing record is left unchanged.  A missing
`hours` field raises `KeyError` (the loop `for slot in resource["hours"]`),
modelled as `Except.error`. -/
def processResource (places : List Place) (r : Resource) : Except String (List Place) :=
  match pattern_match r.resource_name with
  | none => Except.ok places
  | some identifier =>
      let resid := r.resource_id
      let found := places.any (fun p => p.resid == resid)
      match r.hours with
      | none => Except.error "KeyError: hours"
      | some hrs =>
          let availability := bookableHours hrs
          if found then Except.ok places
          else Except.ok (places ++ [⟨identifier, availability, resid⟩])

/-- `get_available` from `main.py`, applied to one lookup response
(transport is out of scope: the decoded resource list is the input). -/
def get_available (resources : List Resource) (places : List Place) :
    Except String (List Place) :=
  resources.foldlM (fun pls r => processResource pls r) places

/-- The lookup `while` loop of `main.py`: issue the calls in order, threading
the accumulated `places` list (initially empty) through `get_available`. -/
def runCalls (calls : List (List Resource)) : Except String (List Place) :=
  calls.foldlM (fun pls rs => get_available rs pls) []

/-- `complete_places` from `main.py`:
`filter(lambda place: place.availability.issuperset(must_contain), places)`. -/
def complete_places (must : Finset Str) (places : List Place) : List Place :=
  places.filter (fun p => decide (must ⊆ p.availability))

/-! ### Selection and fallback (`main.py`, lines 131-139) -/

/-- Observable outcome of the selection step at the end of `main.py`:
either a favorite match is reserved (and the script exits), or the script
prints "Falling back" and reserves `places[0]`, or — with no places at
all — `places[0]` raises `IndexError`. -/
inductive BookingOutcome where
  | booked (p : Place)
  | fallback (p : Place)
  | crash
  deriving DecidableEq

/-- The double loop `for favid in favorite_spots: for place in
complete_places: if place.number == favid: make_reservation(place)`:
first favorite id, in list order, having a matching complete place; within
one id, the first matching place. -/
def findFavorite (favs : List Nat) (complete : List Place) : Option Place :=
  match favs with
  | [] => none
  | f :: fs =>
      match complete.find? (fun p => p.number == f) with
      | some p => some p
      | none => findFavorite fs complete

/-- The selection step of `main.py`: reserve the first favorite match if
any, otherwise fall back to `places[0]` (reserving it whether or not it is
complete), crashing when `places` is empty. -/
def selection (favs : List Nat) (places complete : List Place) : BookingOutcome :=
  match findFavorite favs complete with
  | some p => BookingOutcome.booked p
  | none =>
      match places with
      | [] => BookingOutcome.crash
      | p :: _ => BookingOutcome.fallback p

/-- Whether an outcome issues reservation calls (`make_reservation`). -/
def booksSomething : BookingOutcome → Bool
  | BookingOutcome.booked _ => true
  | BookingOutcome.fallback _ => true
  | BookingOutcome.crash => false

/-! ### The per-category scan (`availability.py`) -/

/-- The `state` value that counts as free (`"available"`). -/
def availableState : Str := "available".data

/-- Locate the index of the slot whose `hour` equals the requested time
slot: the `enumerate`-and-`break` loop of `get_available_seats`. -/
def findTimeSlotIdx (hrs : List Slot) (time_slot : Str) : Option Nat :=
  match hrs with
  | [] => none
  | s :: rest =>
      if s.hour = time_slot then some 0
      else (findTimeSlotIdx rest time_slot).map (· + 1)

/-- One entry appended to `available_seats` in `get_available_seats`
(the float field `duration_hours = duration_minutes / 60` is presentation
only and is omitted from the model). -/
structure SeatInfo where
  resource_id : Int
  resource_name : Str
  description : Str
  places_available : Int
  consecutive_slots : Nat
  duration_minutes : Nat
  end_time : Str
  deriving DecidableEq

/-- The per-resource body of `get_available_seats` (`availability.py`):
read `hours` with default `[]`, find the requested time slot, and if it is
`available` count the consecutive available slots from it; the result
records the run length, `duration_minutes = 30 * run`, the capacity at the
start slot, and the hour of the last available slot in the run. -/
def scanResource (time_slot : Str) (r : Resource) : Option SeatInfo :=
  let hrs := r.hours.getD []
  match findTimeSlotIdx hrs time_slot with
  | none => none
  | some idx =>
      match hrs[idx]? with
      | none => none
      | some slot0 =>
          if slot0.state = availableState then
            let consecutive :=
              ((hrs.drop idx).takeWhile (fun s => decide (s.state = availableState))).length
            match hrs[idx + consecutive - 1]? with
            | none => none
            | some lastSlot =>
                some ⟨r.resource_id, r.resource_name, r.description,
                  slot0.places_available, consecutive, consecutive * 30, lastSlot.hour⟩
          else none

/-- The resource loop of `get_available_seats` for one room type: append
the scan result of each resource in order. -/
def availableSeats (time_slot : Str) (resources : List Resource) : List SeatInfo :=
  resources.filterMap (scanResource time_slot)

/-- The hard-coded excluded room categories of `availability.py`
(`BLACKLIST = {1, 2860, 4415}`). -/
def BLACKLIST : Finset Int := {1, 2860, 4415}

/-- One entry of the `types` array of the site-infos response. -/
structure RoomType where
  resource_type : Int
  localized_description : Str
  deriving DecidableEq

/-- `get_available_seats` from `availability.py`: filter out blacklisted
room types, then for each remaining type fetch its resources (`fetch`
stands for the per-type HTTP lookup) and scan them, keeping a
`(room name, seats)` entry only when some seat is available.  The Python
`results` dict is modelled as the produced key-value sequence. -/
def get_available_seats (types : List RoomType) (fetch : Int → List Resource)
    (time_slot : Str) : List (Str × List SeatInfo) :=
  (types.filter (fun rt => decide (rt.resource_type ∉ BLACKLIST))).filterMap
    (fun rt =>
      let seats := availableSeats time_slot (fetch rt.resource_type)
      if seats.isEmpty then none else some (rt.localized_description, seats))

deriving instance DecidableEq for Except

/-! ### Helper lemmas: the contiguous run computed by `takeWhile` -/

theorem takeWhile_run {α : Type} (p : α → Bool) (l : List α) :
    (∀ k, k < (l.takeWhile p).length → ∃ s, l[k]? = some s ∧ p s = true) ∧
    ((l.takeWhile p).length = l.length ∨
      ∃ s, l[(l.takeWhile p).length]? = some s ∧ p s = false) := by
  induction l with
  | nil => simp
  | cons a l ih =>
      by_cases hp : p a = true
      · rw [List.takeWhile_cons_of_pos hp]
        constructor
        · intro k hk
          match k with
          | 0 => exact ⟨a, List.getElem?_cons_zero, hp⟩
          | k + 1 =>
              rw [List.getElem?_cons_succ]
              exact ih.1 k (by simpa using hk)
        · rcases ih.2 with h | ⟨s, hs, hps⟩
          · left; simp [h]
          · right
            refine ⟨s, ?_, hps⟩
            simpa [List.getElem?_cons_succ] using hs
      · rw [List.takeWhile_cons_of_neg hp]
        constructor
        · intro k hk; simp at hk
        · right
          exact ⟨a, List.getElem?_cons_zero, by simpa using hp⟩

/-! ### Helper lemmas: locating the requested time slot -/

theorem findTimeSlotIdx_none_iff (hrs : List Slot) (ts : Str) :
    findTimeSlotIdx hrs ts = none ↔ ∀ s ∈ hrs, s.hour ≠ ts := by
  induction hrs with
  | nil => simp [findTimeSlotIdx]
  | cons a rest ih =>
      rw [findTimeSlotIdx]
      by_cases ha : a.hour = ts
      · rw [if_pos ha]
        constructor
        · intro h; exact absurd h (by simp)
        · intro h; exact absurd ha (h a (List.mem_cons_self a rest))
      · rw [if_neg ha]
        constructor
        · intro h s hs
          have hrest : findTimeSlotIdx rest ts = none := by
            cases hfi : findTimeSlotIdx rest ts with
            | none => rfl
            | some v => rw [hfi] at h; exact absurd h (by simp)
          rcases List.mem_cons.mp hs with rfl | hs2
          · exact ha
          · exact (ih.mp hrest) s hs2
        · intro h
          have hrest : findTimeSlotIdx rest ts = none :=
            ih.mpr (fun s hs => h s (List.mem_cons_of_mem a hs))
          rw [hrest]
          rfl

theorem findTimeSlotIdx_some (hrs : List Slot) (ts : Str) :
    ∀ i, findTimeSlotIdx hrs ts = some i →
      ∃ s, hrs[i]? = some s ∧ s.hour = ts ∧
        ∀ j, j < i → ∀ s2, hrs[j]? = some s2 → s2.hour ≠ ts := by
  induction hrs with
  | nil => intro i h; simp [findTimeSlotIdx] at h
  | cons a rest ih =>
      intro i h
      rw [findTimeSlotIdx] at h
      by_cases ha : a.hour = ts
      · rw [if_pos ha] at h
        cases h
        exact ⟨a, List.getElem?_cons_zero, ha, fun j hj _ _ => by omega⟩
      · rw [if_neg ha] at h
        rcases Option.map_eq_some.mp h with ⟨i2, hi2, rfl⟩
        obtain ⟨s, hs, hts, hfirst⟩ := ih i2 hi2
        refine ⟨s, by simpa [List.getElem?_cons_succ] using hs, hts, ?_⟩
        intro j hj s2 hs2
        match j with
        | 0 =>
            rw [List.getElem?_cons_zero] at hs2
            cases hs2
            exact ha
        | j + 1 =>
            rw [List.getElem?_cons_succ] at hs2
            exact hfirst j (by omega) s2 hs2

theorem findTimeSlotIdx_of_first (hrs : List Slot) (ts : Str) :
    ∀ i s, hrs[i]? = some s → s.hour = ts →
      (∀ j, j < i → ∀ s2, hrs[j]? = some s2 → s2.hour ≠ ts) →
      findTimeSlotIdx hrs ts = some i := by
  induction hrs with
  | nil => intro i s h; simp at h
  | cons a rest ih =>
      intro i s h hts hfirst
      match i with
      | 0 =>
          rw [List.getElem?_cons_zero] at h
          cases h
          rw [findTimeSlotIdx, if_pos hts]
      | i + 1 =>
          rw [List.getElem?_cons_succ] at h
          have ha : a.hour ≠ ts :=
            hfirst 0 (by omega) a List.getElem?_cons_zero
          rw [findTimeSlotIdx, if_neg ha,
            ih i s h hts (fun j hj s2 hs2 =>
              hfirst (j + 1) (by omega) s2 (by simpa [List.getElem?_cons_succ] using hs2))]
          rfl

/-! ### Helper lemmas: the favorite-selection loops -/

theorem findFavorite_empty (favs : List Nat) : findFavorite favs [] = none := by
  induction favs with
  | nil => rfl
  | cons f fs ih => rw [findFavorite, List.find?_nil, ih]

theorem findFavorite_eq_none (favs : List Nat) (complete : List Place)
    (h : ∀ f ∈ favs, ∀ q ∈ complete, q.number ≠ f) : findFavorite favs complete = none := by
  induction favs with
  | nil => rfl
  | cons f fs ih =>
      rw [findFavorite]
      have hf : complete.find? (fun p => p.number == f) = none := by
        rw [List.find?_eq_none]
        intro q hq
        simpa using h f (List.mem_cons_self f fs) q hq
      rw [hf, ih (fun g hg q hq => h g (List.mem_cons_of_mem f hg) q hq)]

theorem findFavorite_append_skip (fs1 rest : List Nat) (complete : List Place)
    (h : ∀ g ∈ fs1, ∀ q ∈ complete, q.number ≠ g) :
    findFavorite (fs1 ++ rest) complete = findFavorite rest complete := by
  induction fs1 with
  | nil => rfl
  | cons g gs ih =>
      rw [List.cons_append, findFavorite]
      have hg : complete.find? (fun p => p.number == g) = none := by
        rw [List.find?_eq_none]
        intro q hq
        simpa using h g (List.mem_cons_self g gs) q hq
      rw [hg, ih (fun g2 hg2 q hq => h g2 (List.mem_cons_of_mem g hg2) q hq)]

/-! ### Helper lemmas: skipping behaviour of the two resource loops -/

theorem processResource_skip_name (places : List Place) (r : Resource)
    (h : pattern_match r.resource_name = none) : processResource places r = Except.ok places := by
  rw [processResource, h]

theorem get_available_cons_skip (r : Resource) (rs : List Resource) (places : List Place)
    (h : pattern_match r.resource_name = none) :
    get_available (r :: rs) places = get_available rs places := by
  rw [get_available, List.foldlM_cons, processResource_skip_name places r h]
  rfl

theorem processResource_keyerror (places : List Place) (r : Resource) (i : Nat)
    (hname : pattern_match r.resource_name = some i) (hh : r.hours = none) :
    processResource places r = Except.error "KeyError: hours" := by
  rw [processResource, hname, hh]

theorem scanResource_hours_none (ts : Str) (r : Resource) (h : r.hours = none) :
    scanResource ts r = none := by
  rw [scanResource, h]
  rfl

theorem availableSeats_skip (ts : Str) (r : Resource) (h : scanResource ts r = none) :
    ∀ rs1 rs2, availableSeats ts (rs1 ++ r :: rs2) = availableSeats ts (rs1 ++ rs2) := by
  intro rs1 rs2
  rw [availableSeats, availableSeats, List.filterMap_append, List.filterMap_append,
    List.filterMap_cons_none h]

/-! ### Helper lemmas: the contiguous-availability scan -/

theorem scanResource_run (ts : Str) (r : Resource) (hrs : List Slot) (idx : Nat) (slot0 : Slot)
    (hh : r.hours = some hrs)
    (hfind : findTimeSlotIdx hrs ts = some idx)
    (hget : hrs[idx]? = some slot0)
    (hav : slot0.state = availableState) :
    ∃ n lastSlot, 0 < n ∧ hrs[idx + n - 1]? = some lastSlot ∧
      scanResource ts r = some ⟨r.resource_id, r.resource_name, r.description,
        slot0.places_available, n, n * 30, lastSlot.hour⟩ ∧
      (∀ k, k < n → ∃ s, hrs[idx + k]? = some s ∧ s.state = availableState) ∧
      (idx + n = hrs.length ∨ ∃ s, hrs[idx + n]? = some s ∧ s.state ≠ availableState) := by
  have hidx : idx < hrs.length := (List.getElem?_eq_some.mp hget).1
  have hgetd : hrs[idx] = slot0 := (List.getElem?_eq_some.mp hget).2
  have hdrop : hrs.drop idx = slot0 :: hrs.drop (idx + 1) := by
    rw [List.drop_eq_getElem_cons hidx, hgetd]
  have hq0 : (fun s : Slot => decide (s.state = availableState)) slot0 = true := by
    simpa using hav
  have hrun := takeWhile_run (fun s : Slot => decide (s.state = availableState)) (hrs.drop idx)
  set n := ((hrs.drop idx).takeWhile (fun s => decide (s.state = availableState))).length with hn
  have htw : (slot0 :: List.drop (idx + 1) hrs).takeWhile
        (fun s : Slot => decide (s.state = availableState)) =
      slot0 :: (List.drop (idx + 1) hrs).takeWhile
        (fun s : Slot => decide (s.state = availableState)) := by
    apply List.takeWhile_cons_of_pos
    simpa using hav
  have hn1 : 0 < n := by
    rw [hn, hdrop, htw]
    simp
  obtain ⟨lastSlot, hlast0, hlastq⟩ := hrun.1 (n - 1) (by omega)
  rw [List.getElem?_drop] at hlast0
  have hlast : hrs[idx + n - 1]? = some lastSlot := by
    have heq : idx + (n - 1) = idx + n - 1 := by omega
    rwa [heq] at hlast0
  have hscan : scanResource ts r = some ⟨r.resource_id, r.resource_name, r.description,
      slot0.places_available, n, n * 30, lastSlot.hour⟩ := by
    unfold scanResource
    rw [hh]
    simp only [Option.getD_some]
    rw [hfind]
    dsimp only
    rw [hget]
    dsimp only
    rw [if_pos hav, ← hn, hlast]
  refine ⟨n, lastSlot, hn1, hlast, hscan, ?_, ?_⟩
  · intro k hk
    obtain ⟨s, hs, hsq⟩ := hrun.1 k hk
    rw [List.getElem?_drop] at hs
    exact ⟨s, hs, of_decide_eq_true hsq⟩
  · rcases hrun.2 with h | ⟨s, hs, hsq⟩
    · left
      rw [List.length_drop] at h
      omega
    · right
      rw [List.getElem?_drop] at hs
      refine ⟨s, hs, fun hc => ?_⟩
      rw [hc] at hsq
      simp at hsq

theorem scanResource_eq_none (ts : Str) (r : Resource)
    (h : (∀ s ∈ r.hours.getD [], s.hour ≠ ts) ∨
         (∃ (i : Nat) (slot0 : Slot), (r.hours.getD [])[i]? = some slot0 ∧ slot0.hour = ts ∧
            (∀ j, j < i → ∀ s2, (r.hours.getD [])[j]? = some s2 → s2.hour ≠ ts) ∧
            slot0.state ≠ availableState)) :
    scanResource ts r = none := by
  rcases h with h | ⟨i, slot0, hget, hts, hfirst, hstate⟩
  · have hnone : findTimeSlotIdx (r.hours.getD []) ts = none :=
      (findTimeSlotIdx_none_iff _ _).mpr h
    unfold scanResource
    dsimp only
    rw [hnone]
  · have hf : findTimeSlotIdx (r.hours.getD []) ts = some i :=
      findTimeSlotIdx_of_first _ _ i slot0 hget hts hfirst
    unfold scanResource
    dsimp only
    rw [hf]
    dsimp only
    rw [hget]
    dsimp only
    rw [if_neg hstate]

/-! ### Concrete data used by the example theorems

The `must4` window is the spec's example required window
`{08:30, 09:00, 09:30, 10:00}`; `r58c1`/`r58c2` are the same resource id 58
as returned by two successive bounded lookup calls; `pA`/`pB` are an
accumulated non-covering and covering place. -/

/-- The example required window `{08:30, 09:00, 09:30, 10:00}`. -/
def must4 : Finset Str := {"08:30".data, "09:00".data, "09:30".data, "10:00".data}

/-- Resource 58 as returned by the first bounded lookup call: bookable at
08:30 and 09:00. -/
def r58c1 : Resource :=
  ⟨58, "Posto a sedere 58".data, "".data,
    some [⟨"08:30".data, availableState, 1, 1⟩, ⟨"09:00".data, availableState, 1, 1⟩]⟩

/-- Resource 58 as returned by the second bounded lookup call: bookable at
09:30 and 10:00. -/
def r58c2 : Resource :=
  ⟨58, "Posto a sedere 58".data, "".data,
    some [⟨"09:30".data, availableState, 1, 1⟩, ⟨"10:00".data, availableState, 1, 1⟩]⟩

/-- An accumulated place (seat number 12) that does not cover `must4`. -/
def pA : Place := ⟨12, {"08:30".data}, 112⟩

/-- An accumulated place (seat number 58) that fully covers `must4`. -/
def pB : Place := ⟨58, must4, 158⟩

/-- A resource whose name matches the seat pattern but whose `hours` field
is absent. -/
def rNoHours : Resource := ⟨77, "Posto a sedere 77".data, "".data, none⟩

/-- A resource whose name does not match the seat pattern. -/
def rBadName : Resource :=
  ⟨21, "Sala studio 3".data, "".data, some [⟨"08:30".data, availableState, 1, 1⟩]⟩

/-- The slot sequence of the spec example: available, available,
unavailable, available (from 08:00 at 30-minute granularity). -/
def hrsEx : List Slot :=
  [⟨"08:00".data, availableState, 3, 1⟩, ⟨"08:30".data, availableState, 2, 1⟩,
   ⟨"09:00".data, "booked".data, 0, 0⟩, ⟨"09:30".data, availableState, 1, 1⟩]

/-- A resource carrying `hrsEx`. -/
def rEx : Resource := ⟨7, "Posto a sedere 7".data, "desc".data, some hrsEx⟩

/-! ## Claim theorems -/

/-- C1 (code-bug evaluation): when the same resource id 58 appears in two
successive lookup calls, with bookable hours {08:30, 09:00} in the first
call and {09:30, 10:00} in the second, the accumulated availability set
after both calls is still only {08:30, 09:00} — the second call's hours are
added to a fresh set on a discarded `Place` and never merged — so the
containment test against the window {08:30, 09:00, 09:30, 10:00} fails,
where the claim (and the spec's union semantics) says it succeeds. -/
theorem c1_second_call_hours_dropped :
    ((runCalls [[r58c1], [r58c2]]).toOption.getD []).map Place.resid = [58] ∧
    ((runCalls [[r58c1], [r58c2]]).toOption.getD []).map Place.availability =
      [({"08:30".data, "09:00".data} : Finset Str)] ∧
    ¬ must4 ⊆ ({"08:30".data, "09:00".data} : Finset Str) ∧
    complete_places must4 ((runCalls [[r58c1], [r58c2]]).toOption.getD []) = [] := by
  refine ⟨by decide, by decide, by decide, by decide⟩

/-- C2 counterexample: with required window `must4`, accumulated places
`[pA, pB]` where only `pB` (seat 58) fully covers, and preferred list
`[99]` matching nothing, the script books `places[0] = pA`, which is not a
fully-covering resource — refuting the claim that the fallback books a
fully-covering resource. -/
theorem c2_fallback_counterexample :
    complete_places must4 [pA, pB] = [pB] ∧
    (∀ f ∈ [99], ∀ q ∈ complete_places must4 [pA, pB], q.number ≠ f) ∧
    selection [99] [pA, pB] (complete_places must4 [pA, pB]) = BookingOutcome.fallback pA ∧
    pA ∉ complete_places must4 [pA, pB] := by
  refine ⟨by decide, by decide, by decide, by decide⟩

/-- C2 (amended): when no identifier in the preferred list matches a
fully-covering place, the resource booked is the first element of the
overall accumulated `places` list (`places[0]`), regardless of whether it
is fully covering; the spec's example outcome (58 chosen) only obtains when
the 58-place happens to be first in `places`. -/
theorem c2_fallback_books_first_place (favs : List Nat) (must : Finset Str)
    (p0 : Place) (rest : List Place)
    (h : ∀ f ∈ favs, ∀ q ∈ complete_places must (p0 :: rest), q.number ≠ f) :
    selection favs (p0 :: rest) (complete_places must (p0 :: rest)) =
      BookingOutcome.fallback p0 := by
  rw [selection, findFavorite_eq_none _ _ h]

/-- Witness for C2 (amended): preferred list `[99]` matches nothing and the
only accumulated place is the covering 58-place, so the fallback books it. -/
theorem c2_fallback_witness :
    (∀ f ∈ [99], ∀ q ∈ complete_places must4 (pB :: []), q.number ≠ f) ∧
    selection [99] (pB :: []) (complete_places must4 (pB :: [])) =
      BookingOutcome.fallback pB :=
  ⟨by decide, c2_fallback_books_first_place [99] must4 pB [] (by decide)⟩

/-- C3 counterexample: with required window `must4` and the single
non-covering place `pA`, no resource fully covers the window, yet the
script still issues reservation calls (for `places[0] = pA`) — refuting the
claim that in this situation no booking call is performed. -/
theorem c3_books_despite_no_coverage :
    complete_places must4 [pA] = [] ∧
    booksSomething (selection [99] [pA] (complete_places must4 [pA])) = true := by
  refine ⟨by decide, by decide⟩

/-- C3 (amended): when no resource fully covers the window the script does
not report an explicit failure: with at least one accumulated place it
prints "Falling back" and issues reservation calls for `places[0]`; with no
places at all, `places[0]` raises `IndexError`. -/
theorem c3_no_coverage_behavior (favs : List Nat) (must : Finset Str)
    (p0 : Place) (rest : List Place)
    (h : complete_places must (p0 :: rest) = []) :
    selection favs (p0 :: rest) (complete_places must (p0 :: rest)) =
      BookingOutcome.fallback p0 ∧
    booksSomething (selection favs (p0 :: rest) (complete_places must (p0 :: rest))) = true ∧
    selection favs ([] : List Place) ([] : List Place) = BookingOutcome.crash := by
  have h1 : selection favs (p0 :: rest) (complete_places must (p0 :: rest)) =
      BookingOutcome.fallback p0 := by
    rw [selection, h, findFavorite_empty]
  refine ⟨h1, by rw [h1]; rfl, ?_⟩
  rw [selection, findFavorite_empty]

/-- Witness for C3 (amended) at the concrete no-coverage input. -/
theorem c3_no_coverage_witness :
    complete_places must4 (pA :: []) = [] ∧
    (selection [99] (pA :: []) (complete_places must4 (pA :: [])) =
        BookingOutcome.fallback pA ∧
      booksSomething (selection [99] (pA :: []) (complete_places must4 (pA :: []))) = true ∧
      selection [99] ([] : List Place) ([] : List Place) = BookingOutcome.crash) :=
  ⟨by decide, c3_no_coverage_behavior [99] must4 pA [] (by decide)⟩

/-- C4: when the slot sequence contains the target timestamp at index `idx`
and that slot is available, the scan produces exactly the maximal
consecutive available run starting there: its length `n` satisfies that all
`n` slots from `idx` are available and the run stops at the first
non-available slot or the end of the sequence; the reported entry carries
run length `n`, `duration_minutes = n * 30`, the end time of the last
available slot of the run, and the capacity of the start slot. -/
theorem c4_contiguous_run_spec (ts : Str) (r : Resource) (hrs : List Slot)
    (idx : Nat) (slot0 : Slot)
    (hh : r.hours = some hrs)
    (hfind : findTimeSlotIdx hrs ts = some idx)
    (hget : hrs[idx]? = some slot0)
    (hav : slot0.state = availableState) :
    ∃ n lastSlot, 0 < n ∧ hrs[idx + n - 1]? = some lastSlot ∧
      scanResource ts r = some ⟨r.resource_id, r.resource_name, r.description,
        slot0.places_available, n, n * 30, lastSlot.hour⟩ ∧
      (∀ k, k < n → ∃ s, hrs[idx + k]? = some s ∧ s.state = availableState) ∧
      (idx + n = hrs.length ∨ ∃ s, hrs[idx + n]? = some s ∧ s.state ≠ availableState) :=
  scanResource_run ts r hrs idx slot0 hh hfind hget hav

/-- Witness for C4 at the spec example `[available, available, unavailable,
available]` scanned from index 0: the run length is 2 (not 3), the duration
is 60 minutes, the end time is the second slot's 08:30, and the capacity is
the start slot's 3. -/
theorem c4_contiguous_run_witness :
    (rEx.hours = some hrsEx ∧ findTimeSlotIdx hrsEx "08:00".data = some 0 ∧
      hrsEx[0]? = some ⟨"08:00".data, availableState, 3, 1⟩) ∧
    (∃ n lastSlot, 0 < n ∧ hrsEx[0 + n - 1]? = some lastSlot ∧
      scanResource "08:00".data rEx = some ⟨rEx.resource_id, rEx.resource_name,
        rEx.description, (⟨"08:00".data, availableState, 3, 1⟩ : Slot).places_available,
        n, n * 30, lastSlot.hour⟩ ∧
      (∀ k, k < n → ∃ s, hrsEx[0 + k]? = some s ∧ s.state = availableState) ∧
      (0 + n = hrsEx.length ∨ ∃ s, hrsEx[0 + n]? = some s ∧ s.state ≠ availableState)) ∧
    scanResource "08:00".data rEx =
      some ⟨7, "Posto a sedere 7".data, "desc".data, 3, 2, 60, "08:30".data⟩ :=
  ⟨⟨rfl, by decide, by decide⟩,
   c4_contiguous_run_spec "08:00".data rEx hrsEx 0 ⟨"08:00".data, availableState, 3, 1⟩
     rfl (by decide) (by decide) rfl,
   by decide⟩

/-- C5: a resource whose slot sequence has no slot with the target hour, or
whose (first) matching slot is not available, yields no scan result, and
removing it from the resource list leaves the output for all other
resources unchanged. -/
theorem c5_scan_skips_resource (ts : Str) (r : Resource)
    (h : (∀ s ∈ r.hours.getD [], s.hour ≠ ts) ∨
         (∃ (i : Nat) (slot0 : Slot), (r.hours.getD [])[i]? = some slot0 ∧ slot0.hour = ts ∧
            (∀ j, j < i → ∀ s2, (r.hours.getD [])[j]? = some s2 → s2.hour ≠ ts) ∧
            slot0.state ≠ availableState)) :
    scanResource ts r = none ∧
    ∀ rs1 rs2, availableSeats ts (rs1 ++ r :: rs2) = availableSeats ts (rs1 ++ rs2) := by
  have hn := scanResource_eq_none ts r h
  exact ⟨hn, availableSeats_skip ts r hn⟩

/-- Witness for C5: `rEx` has no slot at 10:00, so the scan yields no
result for it and its presence does not change the output for the others. -/
theorem c5_scan_skips_witness :
    (∀ s ∈ rEx.hours.getD [], s.hour ≠ "10:00".data) ∧
    (scanResource "10:00".data rEx = none ∧
      ∀ rs1 rs2, availableSeats "10:00".data (rs1 ++ rEx :: rs2) =
        availableSeats "10:00".data (rs1 ++ rs2)) :=
  ⟨by decide, c5_scan_skips_resource "10:00".data rEx (Or.inl (by decide))⟩

/-- C6: when the preferred list decomposes as `fs1 ++ f :: fs2` where no
identifier of `fs1` matches a fully-covering place and `f` has a match `p`
among the fully-covering places (`find?` returns the first such), the
selection books `p`: the fully-covering resource matching the earliest
matching identifier in list order, and `p` indeed fully covers the window. -/
theorem c6_priority_selection (must : Finset Str) (fs1 fs2 : List Nat) (f : Nat)
    (places : List Place) (p : Place)
    (h1 : ∀ g ∈ fs1, ∀ q ∈ complete_places must places, q.number ≠ g)
    (h2 : (complete_places must places).find? (fun q => q.number == f) = some p) :
    selection (fs1 ++ f :: fs2) places (complete_places must places) =
      BookingOutcome.booked p ∧
    p ∈ complete_places must places ∧ p.number = f ∧ must ⊆ p.availability := by
  have hmem : p ∈ complete_places must places := List.mem_of_find?_eq_some h2
  have hnum : p.number = f := by simpa using List.find?_some h2
  have hsub : must ⊆ p.availability := by
    have h3 := hmem
    unfold complete_places at h3
    exact of_decide_eq_true (List.mem_filter.mp h3).2
  have hff : findFavorite (fs1 ++ f :: fs2) (complete_places must places) = some p := by
    rw [findFavorite_append_skip fs1 (f :: fs2) _ h1, findFavorite, h2]
  have hsel : selection (fs1 ++ f :: fs2) places (complete_places must places) =
      BookingOutcome.booked p := by
    rw [selection.eq_def, hff]
  exact ⟨hsel, hmem, hnum, hsub⟩

/-- A fully-covering place with seat number 47. -/
def p47 : Place := ⟨47, must4, 147⟩

/-- Witness for C6 at the spec example: preferred list `[46, 47]`,
fully-covering places numbered 47 and 58 — the chosen resource is 47. -/
theorem c6_priority_witness :
    ((∀ g ∈ [46], ∀ q ∈ complete_places must4 [p47, pB], q.number ≠ g) ∧
      (complete_places must4 [p47, pB]).find? (fun q => q.number == 47) = some p47) ∧
    (selection ([46] ++ 47 :: []) [p47, pB] (complete_places must4 [p47, pB]) =
        BookingOutcome.booked p47 ∧
      p47 ∈ complete_places must4 [p47, pB] ∧ p47.number = 47 ∧
      must4 ⊆ p47.availability) :=
  ⟨⟨by decide, by decide⟩,
   c6_priority_selection must4 [46] [] 47 [p47, pB] p47 (by decide) (by decide)⟩

/-- C7: for every start time in minutes and positive duration that is a
multiple of the 30-minute granularity, the generated required window is
exactly the image of `{0, ..., duration/30 - 1}` under
`k ↦ minutes_to_watch (start + k * 30)`, and its cardinality times 30
regenerates the duration. -/
theorem c7_required_window_roundtrip (startMinutes d : Nat)
    (_h0 : 0 < d) (h30 : d % 30 = 0) :
    must_contain startMinutes d =
      (Finset.range (d / 30)).image (fun k => minutes_to_watch (startMinutes + k * 30)) ∧
    (must_contain startMinutes d).card * 30 = d :=
  ⟨must_contain_eq_image startMinutes d h30, must_contain_card startMinutes d h30⟩

/-- Witness for C7 at the spec example: start 08:30 (510 minutes) with
duration 60 minutes yields exactly `{08:30, 09:00}`. -/
theorem c7_required_window_witness :
    (0 < 60 ∧ 60 % 30 = 0) ∧
    (must_contain 510 60 =
        (Finset.range (60 / 30)).image (fun k => minutes_to_watch (510 + k * 30)) ∧
      (must_contain 510 60).card * 30 = 60) ∧
    must_contain 510 60 = ({"08:30".data, "09:00".data} : Finset Str) :=
  ⟨by decide, c7_required_window_roundtrip 510 60 (by decide) (by decide), by decide⟩

/-- C8: every key of the availability result mapping comes from a room type
that is not in the hard-coded exclusion list, so a category whose
`resource_type` is blacklisted never contributes a key — in particular a
blacklisted category whose description is borne only by blacklisted types
never appears as a key, regardless of the availability of its resources. -/
theorem c8_blacklist_excluded (types : List RoomType) (fetch : Int → List Resource)
    (ts : Str) :
    (∀ k ∈ (get_available_seats types fetch ts).map Prod.fst,
      ∃ rt ∈ types, rt.resource_type ∉ BLACKLIST ∧ rt.localized_description = k) ∧
    (∀ rt ∈ types, rt.resource_type ∈ BLACKLIST →
      (∀ rt2 ∈ types, rt2.localized_description = rt.localized_description →
        rt2.resource_type ∈ BLACKLIST) →
      rt.localized_description ∉ (get_available_seats types fetch ts).map Prod.fst) := by
  have key : ∀ k ∈ (get_available_seats types fetch ts).map Prod.fst,
      ∃ rt ∈ types, rt.resource_type ∉ BLACKLIST ∧ rt.localized_description = k := by
    intro k hk
    rcases List.mem_map.mp hk with ⟨⟨k2, seats⟩, hmem, hfst⟩
    unfold get_available_seats at hmem
    rcases List.mem_filterMap.mp hmem with ⟨rt, hrt, hf⟩
    rcases List.mem_filter.mp hrt with ⟨hrt_types, hrt_bl⟩
    refine ⟨rt, hrt_types, of_decide_eq_true hrt_bl, ?_⟩
    dsimp only at hf
    split at hf
    · exact absurd hf (by simp)
    · cases hf
      exact hfst
  refine ⟨key, ?_⟩
  intro rt hrt hbl hall hk
  obtain ⟨rt2, hrt2, hbl2, hdesc⟩ := key rt.localized_description hk
  exact hbl2 (hall rt2 hrt2 hdesc)

/-- A blacklisted room type (group study rooms, `resource_type = 1`). -/
def rtGroup : RoomType := ⟨1, "Group rooms".data⟩

/-- A non-blacklisted room type. -/
def rtSeats : RoomType := ⟨972, "Seats".data⟩

/-- Witness for C8: even though the fetch reports availability for every
type, the blacklisted category's name is absent from the result keys. -/
theorem c8_blacklist_witness :
    (rtGroup ∈ [rtGroup, rtSeats] ∧ rtGroup.resource_type ∈ BLACKLIST ∧
      (∀ rt2 ∈ [rtGroup, rtSeats],
        rt2.localized_description = rtGroup.localized_description →
        rt2.resource_type ∈ BLACKLIST)) ∧
    rtGroup.localized_description ∉
      (get_available_seats [rtGroup, rtSeats] (fun _ => [rEx]) "08:00".data).map Prod.fst ∧
    (get_available_seats [rtGroup, rtSeats] (fun _ => [rEx]) "08:00".data).map Prod.fst =
      ["Seats".data] :=
  ⟨⟨by decide, by decide, by decide⟩,
   (c8_blacklist_excluded [rtGroup, rtSeats] (fun _ => [rEx]) "08:00".data).2
     rtGroup (by decide) (by decide) (by decide),
   by decide⟩

/-- C9 counterexample: a resource whose name matches the seat pattern but
whose `hours` field is absent makes `get_available` raise `KeyError`,
aborting the whole computation (a later well-formed resource in the same
response contributes nothing) — refuting the claim that such a resource
never raises an error that aborts the computation. -/
theorem c9_keyerror_aborts :
    get_available [rNoHours] [] = Except.error "KeyError: hours" ∧
    get_available [rNoHours, r58c1] [] = Except.error "KeyError: hours" := by
  refine ⟨by decide, by decide⟩

/-- C9 (amended): in the category scan (`availability.py`) a resource with
an absent `hours` field is skipped without affecting other resources; in
the coverage computation (`main.py`) a resource whose name does not match
the seat pattern is skipped without affecting other resources; but in the
coverage computation a matching-name resource with an absent `hours` field
raises a `KeyError` that aborts the computation. -/
theorem c9_skip_behavior :
    (∀ ts (r : Resource) rs1 rs2, r.hours = none →
      availableSeats ts (rs1 ++ r :: rs2) = availableSeats ts (rs1 ++ rs2)) ∧
    (∀ (r : Resource) rs places, pattern_match r.resource_name = none →
      get_available (r :: rs) places = get_available rs places) ∧
    (∀ (r : Resource) places i, pattern_match r.resource_name = some i → r.hours = none →
      processResource places r = Except.error "KeyError: hours") := by
  refine ⟨?_, ?_, ?_⟩
  · intro ts r rs1 rs2 hh
    exact availableSeats_skip ts r (scanResource_hours_none ts r hh) rs1 rs2
  · intro r rs places hname
    exact get_available_cons_skip r rs places hname
  · intro r places i hname hh
    exact processResource_keyerror places r i hname hh

/-- Witness for C9 (amended) at concrete resources. -/
theorem c9_skip_witness :
    availableSeats "08:30".data ([] ++ rNoHours :: [r58c1]) =
      availableSeats "08:30".data ([] ++ [r58c1]) ∧
    get_available (rBadName :: [r58c1]) [] = get_available [r58c1] [] ∧
    processResource [] rNoHours = Except.error "KeyError: hours" :=
  ⟨c9_skip_behavior.1 "08:30".data rNoHours [] [r58c1] rfl,
   c9_skip_behavior.2.1 rBadName [r58c1] [] (by decide),
   c9_skip_behavior.2.2 rNoHours [] 77 (by decide) rfl⟩

/-- C10: the two time conversions are mutually inverse: converting any
number of minutes to a clock string and back is the identity, and
converting any canonical clock string (two-digit-padded hour and minute,
minute below 60) to minutes and back is the identity. -/
theorem c10_time_roundtrip :
    (∀ m : Nat, watch_to_minutes (minutes_to_watch m) = m) ∧
    (∀ h m : Nat, m < 60 →
      minutes_to_watch (watch_to_minutes (pad2 h ++ ':' :: pad2 m)) =
        pad2 h ++ ':' :: pad2 m) :=
  ⟨w2m_m2w, fun h m hm => m2w_w2m h m hm⟩

/-- Witness for C10 at 510 minutes and the clock string 08:30. -/
theorem c10_time_roundtrip_witness :
    watch_to_minutes (minutes_to_watch 510) = 510 ∧ 30 < 60 ∧
    minutes_to_watch (watch_to_minutes (pad2 8 ++ ':' :: pad2 30)) =
      pad2 8 ++ ':' :: pad2 30 :=
  ⟨c10_time_roundtrip.1 510, by decide, c10_time_roundtrip.2 8 30 (by decide)⟩

end Affluences
